import Mathlib

/-!
# Atmora — verification of the region-selection geometry and task-polling core

Shallow embedding of the computational core of the Atmora repository:

* the geometry helpers of `SquareSelector.tsx` (`convexHull`,
  `calculatePolygonCentroid`, `calculatePolygonArea`) and the polygon drawer's
  click handler;
* the progress-polling client of `WeatherForm.tsx` / `PredictionForm.tsx`
  (`pollProgress` tick handler, `setInterval` timing, unmount cleanup effect).

JavaScript numbers are modelled as exact rationals (`ℚ`); IEEE-754 rounding is
out of scope.  Fallible paths are modelled explicitly (a poll tick either
returns a response or throws).
-/

namespace Atmora

/-- A map coordinate `[latitude, longitude]` (`type LatLng = [number, number]`).
Component `1` is latitude (index `0` in the source), component `2` is
longitude (index `1`). -/
abbrev Point := ℚ × ℚ

/-! ## `convexHull` (SquareSelector.tsx)

```js
const convexHull = (points: LatLng[]): LatLng[] => {
  if (points.length < 3) return points;
  let bottom = 0;
  for (let i = 1; i < points.length; i++) {
    if (points[i][0] < points[bottom][0] ||
        (points[i][0] === points[bottom][0] && points[i][1] < points[bottom][1])) {
      bottom = i;
    }
  }
  [points[0], points[bottom]] = [points[bottom], points[0]];
  const p0 = points[0];
  const sortedPoints = points.slice(1).sort((a, b) => {
    const angleA = Math.atan2(a[0] - p0[0], a[1] - p0[1]);
    const angleB = Math.atan2(b[0] - p0[0], b[1] - p0[1]);
    return angleA - angleB;
  });
  return [p0, ...sortedPoints];
};
```
-/

/-- The strict lexicographic test of the `bottom` loop:
`points[i][0] < points[bottom][0] || (points[i][0] === points[bottom][0] && points[i][1] < points[bottom][1])`. -/
def lexLtB (a b : Point) : Bool :=
  a.1 < b.1 || (a.1 == b.1 && a.2 < b.2)

/-- One iteration of the `bottom` loop: replace the current best index by `i`
when `points[i]` is strictly lexicographically smaller. -/
def bottomStep (pts : List Point) (bottom i : ℕ) : ℕ :=
  if lexLtB (pts.getD i (0, 0)) (pts.getD bottom (0, 0)) then i else bottom

/-- The `bottom` loop: scan indices `1 .. points.length - 1`, starting from
index `0`, keeping the index of the lexicographically smallest point seen. -/
def bottomIdx (pts : List Point) : ℕ :=
  (List.range' 1 (pts.length - 1)).foldl (bottomStep pts) 0

/-- Exact rational surrogate for the sort key `Math.atan2 y x`:
`pseudoAngle y x` is strictly increasing in the true angle
`atan2 y x ∈ (-π, π]` (and maps equal angles to equal values), so comparing
`pseudoAngle` values compares `atan2` values.  This keeps the comparator of
the source's `sort((a, b) => atan2A - atan2B)` decidable over `ℚ`.
Like `Math.atan2`, it sends `(0, 0)` to `0` (in `ℚ`, `0 / 0 = 0`). -/
def pseudoAngle (y x : ℚ) : ℚ :=
  let r := y / (|x| + |y|)
  if 0 ≤ x then r else if 0 ≤ y then 2 - r else -2 - r

/-- The comparator of `points.slice(1).sort(...)`: ascending by the angle
`atan2(a[0] - p0[0], a[1] - p0[1])` around the pivot `p0`. -/
def angleLe (p0 a b : Point) : Bool :=
  pseudoAngle (a.1 - p0.1) (a.2 - p0.2) ≤ pseudoAngle (b.1 - p0.1) (b.2 - p0.2)

/-- Coarse angle class of a vector `(y, x)` in the closed upper half-plane
(`0 ≤ y`, the only region where `convexHull`'s comparator is evaluated,
since every non-pivot point has latitude ≥ the pivot's): `0` on the
nonnegative x-axis (angle `0`; includes the origin, as `Math.atan2(0, x) =
0` for `x ≥ 0`), `1` in the open upper half-plane (angle in `(0, π)`), `2`
on the negative x-axis (angle `π`). -/
def upperClass (y x : ℚ) : ℕ :=
  if 0 < y then 1 else if 0 ≤ x then 0 else 2

/-- The destructuring swap `[points[i], points[j]] = [points[j], points[i]]`
(identity when an index is out of range, which the source never does). -/
def listSwap {α : Type*} (l : List α) (i j : ℕ) : List α :=
  match l[i]?, l[j]? with
  | some a, some b => (l.set i b).set j a
  | _, _ => l

/-- `convexHull` from `SquareSelector.tsx`: for fewer than 3 points return the
input unchanged; otherwise swap the lexicographically smallest point to the
front and follow it by the remaining points sorted by polar angle around it.
(JavaScript's `Array.prototype.sort` is stable and sorts ascending by the
comparator's numeric key; `List.mergeSort` is the same stable sort.) -/
def convexHull (points : List Point) : List Point :=
  if points.length < 3 then points
  else
    let pts := listSwap points 0 (bottomIdx points)
    let p0 := pts.headD (0, 0)
    p0 :: pts.tail.mergeSort (angleLe p0)

/-! ## `calculatePolygonCentroid` and `calculatePolygonArea` -/

/-- The loop term
`points[i][0] * points[j][1] - points[j][0] * points[i][1]` (with `j = i + 1`
cyclically): the cross product of consecutive vertices. -/
def crossProduct (a b : Point) : ℚ := a.1 * b.2 - b.1 * a.2

/-- The accumulated shoelace sum `Σᵢ cross(points[i], points[(i+1) % n])`,
shared by `calculatePolygonCentroid` (`area` before the `*= 0.5`) and
`calculatePolygonArea`. -/
def shoelaceSum (pts : List Point) : ℚ :=
  ∑ i ∈ Finset.range pts.length,
    crossProduct (pts.getD i (0, 0)) (pts.getD ((i + 1) % pts.length) (0, 0))

/-- The accumulated `centroidLat` of the centroid loop:
`Σᵢ (points[i][0] + points[j][0]) * cross(points[i], points[j])`. -/
def centroidLatSum (pts : List Point) : ℚ :=
  ∑ i ∈ Finset.range pts.length,
    ((pts.getD i (0, 0)).1 + (pts.getD ((i + 1) % pts.length) (0, 0)).1) *
      crossProduct (pts.getD i (0, 0)) (pts.getD ((i + 1) % pts.length) (0, 0))

/-- The accumulated `centroidLng` of the centroid loop:
`Σᵢ (points[i][1] + points[j][1]) * cross(points[i], points[j])`. -/
def centroidLngSum (pts : List Point) : ℚ :=
  ∑ i ∈ Finset.range pts.length,
    ((pts.getD i (0, 0)).2 + (pts.getD ((i + 1) % pts.length) (0, 0)).2) *
      crossProduct (pts.getD i (0, 0)) (pts.getD ((i + 1) % pts.length) (0, 0))

/-- `calculatePolygonCentroid` from `SquareSelector.tsx`.  `0` points returns
`[0, 0]`; `1` point returns that point; `2` points returns their midpoint;
otherwise the shoelace centroid, falling back to the arithmetic mean when
`|area| < 1e-10`. -/
def calculatePolygonCentroid (points : List Point) : Point :=
  if points.length = 0 then (0, 0)
  else if points.length = 1 then points.getD 0 (0, 0)
  else if points.length = 2 then
    (((points.getD 0 (0, 0)).1 + (points.getD 1 (0, 0)).1) / 2,
     ((points.getD 0 (0, 0)).2 + (points.getD 1 (0, 0)).2) / 2)
  else
    let area := shoelaceSum points * (1 / 2)
    if |area| < 1 / 10 ^ 10 then
      ((points.map Prod.fst).sum / points.length,
       (points.map Prod.snd).sum / points.length)
    else
      (centroidLatSum points / (6 * area), centroidLngSum points / (6 * area))

/-- `calculatePolygonArea` from `SquareSelector.tsx`: `0` for fewer than 3
points, otherwise `|shoelace| / 2 * 111 * 111` (degrees-to-km planar
approximation). -/
def calculatePolygonArea (points : List Point) : ℚ :=
  if points.length < 3 then 0
  else |shoelaceSum points| / 2 * 111 * 111

/-! ## Polygon drawer click handler (`ClickHandler` in SquareSelector.tsx)

```js
click(e) {
  if (points.length < 8) {
    const newPoint: LatLng = [e.latlng.lat, e.latlng.lng];
    const newPoints = [...points, newPoint];
    if (newPoints.length >= 3) {
      const convexPoints = convexHull([...newPoints]);
      setPoints(convexPoints);
    } else {
      setPoints(newPoints);
    }
  } else {
    alert('Maximum 8 points selected. Right-click to finalize or reset.');
  }
}
```
-/

/-- One `click` event of the polygon drawer: returns the new committed vertex
list and whether the "maximum reached" alert was shown.  The handler is a
total function — no other outcome exists. -/
def clickHandlerStep (points : List Point) (p : Point) : List Point × Bool :=
  if points.length < 8 then
    let newPoints := points ++ [p]
    if 3 ≤ newPoints.length then (convexHull newPoints, false)
    else (newPoints, false)
  else (points, true)

/-! ## Claim-side (specification) formulas

These definitions follow the specification's wording, independently of the
loop-based embeddings above, so that agreement between the two is a theorem
rather than a restatement. -/

/-- Spec formula `Σᵢ (xᵢ yᵢ₊₁ − xᵢ₊₁ yᵢ)` (indices cyclic), written as a sum
over the list of consecutive vertex pairs — the list zipped with its rotation
by one. -/
def specShoelace (pts : List Point) : ℚ :=
  ((pts.zip (pts.rotate 1)).map fun q => q.1.1 * q.2.2 - q.2.1 * q.1.2).sum

/-- Spec formula `Σᵢ (xᵢ + xᵢ₊₁) (xᵢ yᵢ₊₁ − xᵢ₊₁ yᵢ)` for the centroid's
first coordinate. -/
def specWeightedLat (pts : List Point) : ℚ :=
  ((pts.zip (pts.rotate 1)).map
    fun q => (q.1.1 + q.2.1) * (q.1.1 * q.2.2 - q.2.1 * q.1.2)).sum

/-- Spec formula `Σᵢ (yᵢ + yᵢ₊₁) (xᵢ yᵢ₊₁ − xᵢ₊₁ yᵢ)` for the centroid's
second coordinate. -/
def specWeightedLng (pts : List Point) : ℚ :=
  ((pts.zip (pts.rotate 1)).map
    fun q => (q.1.2 + q.2.2) * (q.1.1 * q.2.2 - q.2.1 * q.1.2)).sum

/-- Arithmetic mean of a point list (the spec's degenerate-input fallback). -/
def specMean (pts : List Point) : Point :=
  ((pts.map Prod.fst).sum / pts.length, (pts.map Prod.snd).sum / pts.length)

/-- Midpoint of two points (the spec's 2-point case). -/
def specMidpoint (a b : Point) : Point :=
  ((a.1 + b.1) / 2, (a.2 + b.2) / 2)

/-- Orientation test: twice the signed area of triangle `a b c`. -/
def cross3 (a b c : Point) : ℚ :=
  (b.1 - a.1) * (c.2 - a.2) - (b.2 - a.2) * (c.1 - a.1)

/-- `p` lies strictly inside triangle `a b c`: `p` is strictly on the same
side of all three (directed) edges. -/
def strictlyInsideTriangle (a b c p : Point) : Prop :=
  (0 < cross3 a b p ∧ 0 < cross3 b c p ∧ 0 < cross3 c a p) ∨
  (cross3 a b p < 0 ∧ cross3 b c p < 0 ∧ cross3 c a p < 0)

/-! ## TaskClient polling (WeatherForm.tsx)

```js
const pollProgress = async (taskId: string) => {
  const pollInterval = setInterval(async () => {
    try {
      const progressData = await api.getProgress(taskId);
      setProgress(progressData);
      if (progressData.completed) {
        clearInterval(pollInterval);
        setIsAnalyzing(false);
        if (progressData.summary) setAnalysisResults(progressData.summary);
        if (progressData.charts) setCharts(progressData.charts);
      }
      if (progressData.error) {
        clearInterval(pollInterval);
        setError(progressData.error);
        setIsAnalyzing(false);
      }
    } catch (err) {
      clearInterval(pollInterval);
      setError(err instanceof Error ? err.message : 'Failed to get progress');
      setIsAnalyzing(false);
    }
  }, 2000);
};
```
-/

/-- JavaScript truthiness of a nullable string: `null`/`undefined` and `""`
are falsy, every other string is truthy. -/
def strTruthy : Option String → Bool
  | none => false
  | some s => s != ""

/-- The fields of the weather `ProgressResponse` that `pollProgress` reads or
stores.  The `summary`/`charts` payloads are opaque to the handler and are
modelled by type parameters; display-only fields the handler never branches
on (`task_id`, `status`, `progress`, `total`) are elided.  `completed?:
boolean` is undefined-or-boolean, modelled as `Bool` with `undefined ↦
false`; `error?: string` is modelled as `Option String` with JS truthiness. -/
structure ProgressResponse (σ χ : Type) where
  completed : Bool
  summary : Option σ
  charts : Option χ
  error : Option String
  percentage : ℚ
  elapsed_time : ℚ

/-- The `WeatherForm` component state touched by submit/poll/unmount:
`currentTaskId`, `isAnalyzing`, `progress`, `analysisResults`, `charts`,
`error`, plus whether the `setInterval` started by `pollProgress` is still
live (`clearInterval` has not been called). -/
structure ClientState (σ χ : Type) where
  currentTaskId : Option String
  isAnalyzing : Bool
  progress : Option (ProgressResponse σ χ)
  analysisResults : Option σ
  charts : Option χ
  error : Option String
  intervalActive : Bool

/-- Outcome of one tick's `await api.getProgress(taskId)`: a parsed response,
or a thrown value (`some m` an `Error` with message `m`; `none` a non-`Error`
thrown value, for which the handler substitutes its fixed fallback text). -/
inductive TickOutcome (σ χ : Type) where
  | ok (r : ProgressResponse σ χ)
  | thrown (errMsg : Option String)

/-- Well-formedness of a tick outcome: a thrown `Error` carries a non-empty
message.  This holds for every `Error` the program itself constructs (each
`throw new Error(e.error || '<literal>')` site falls back to a non-empty
literal) and for transport errors such as `TypeError: Failed to fetch`. -/
def TickOutcome.wf {σ χ : Type} : TickOutcome σ χ → Prop
  | .thrown (some m) => m ≠ ""
  | _ => True

/-- One invocation of the `setInterval` callback of `pollProgress`
(WeatherForm), translated statement by statement from the source above. -/
def tickStep {σ χ : Type} (s : ClientState σ χ) (o : TickOutcome σ χ) :
    ClientState σ χ :=
  match o with
  | .ok r =>
    let s1 := { s with progress := some r }
    let s2 :=
      if r.completed then
        { s1 with
          intervalActive := false
          isAnalyzing := false
          analysisResults :=
            match r.summary with | some v => some v | none => s1.analysisResults
          charts :=
            match r.charts with | some v => some v | none => s1.charts }
      else s1
    if strTruthy r.error then
      { s2 with intervalActive := false, error := r.error, isAnalyzing := false }
    else s2
  | .thrown e =>
    { s with
      intervalActive := false
      error := some (e.getD "Failed to get progress")
      isAnalyzing := false }

/-- `setInterval` semantics for the poll loop: the callback runs for each
scheduled tick while the interval is live; once `clearInterval` has run
(`intervalActive = false`), no further callback fires. -/
def runTicks {σ χ : Type} (s : ClientState σ χ) :
    List (TickOutcome σ χ) → ClientState σ χ
  | [] => s
  | o :: rest => if s.intervalActive then runTicks (tickStep s o) rest else s

/-- A tick outcome on which the handler calls `clearInterval`:
`completed` truthy, `error` truthy, or a throw. -/
def terminalOutcome {σ χ : Type} : TickOutcome σ χ → Bool
  | .ok r => r.completed || strTruthy r.error
  | .thrown _ => true

/-- The `WeatherForm` state right after a successful submit on a fresh form:
`handleSubmit` has run `setIsAnalyzing(true)`, `setError(null)`,
`setAnalysisResults(null)`, `setCharts(null)`, `setCurrentTaskId(task_id)`,
and `pollProgress` has installed the interval. -/
def postSubmitState {σ χ : Type} (taskId : String) : ClientState σ χ :=
  { currentTaskId := some taskId
    isAnalyzing := true
    progress := none
    analysisResults := none
    charts := none
    error := none
    intervalActive := true }

/-- The component's unmount path.  The only unmount-time code is the
`useEffect` cleanup
(`if (currentTaskId && !isAnalyzing) api.cleanupTask(currentTaskId)`); no
code path clears `pollInterval` at unmount, so local state — including the
live interval — is untouched.  Returns the post-unmount local state and
whether `cleanup(taskId)` was issued. -/
def unmountStep {σ χ : Type} (s : ClientState σ χ) : ClientState σ χ × Bool :=
  (s, strTruthy s.currentTaskId && !s.isAnalyzing)

/-! ## TaskClient polling (PredictionForm.tsx)

Same control flow as WeatherForm's `pollProgress`; the completed branch
stores `progressData.result` (no charts), and a non-OK HTTP status throws
`new Error('Failed to get progress')` into the same catch. -/

/-- The fields of the prediction `ProgressResponse` that its `pollProgress`
reads or stores; the `result` payload is opaque and modelled by a type
parameter. -/
structure PredProgressResponse (ρ : Type) where
  completed : Bool
  result : Option ρ
  error : Option String
  progress : ℚ
  elapsed_time : ℚ

/-- The `PredictionForm` component state touched by the poll loop. -/
structure PredState (ρ : Type) where
  currentTaskId : Option String
  isPredicting : Bool
  progress : Option (PredProgressResponse ρ)
  predictionResults : Option ρ
  error : Option String
  intervalActive : Bool

/-- Outcome of one prediction poll tick, as for `TickOutcome`. -/
inductive PredTickOutcome (ρ : Type) where
  | ok (r : PredProgressResponse ρ)
  | thrown (errMsg : Option String)

/-- As `TickOutcome.wf`, for the prediction loop: thrown `Error`s carry a
non-empty message. -/
def PredTickOutcome.wf {ρ : Type} : PredTickOutcome ρ → Prop
  | .thrown (some m) => m ≠ ""
  | _ => True

/-- One invocation of the `setInterval` callback of `pollProgress`
(PredictionForm). -/
def predTickStep {ρ : Type} (s : PredState ρ) (o : PredTickOutcome ρ) :
    PredState ρ :=
  match o with
  | .ok r =>
    let s1 := { s with progress := some r }
    let s2 :=
      if r.completed then
        { s1 with
          intervalActive := false
          isPredicting := false
          predictionResults :=
            match r.result with | some v => some v | none => s1.predictionResults }
      else s1
    if strTruthy r.error then
      { s2 with intervalActive := false, error := r.error, isPredicting := false }
    else s2
  | .thrown e =>
    { s with
      intervalActive := false
      error := some (e.getD "Failed to get progress")
      isPredicting := false }

/-- `setInterval` semantics for the prediction poll loop. -/
def predRunTicks {ρ : Type} (s : PredState ρ) :
    List (PredTickOutcome ρ) → PredState ρ
  | [] => s
  | o :: rest => if s.intervalActive then predRunTicks (predTickStep s o) rest else s

/-! ## Poll-tick timing (`setInterval(async cb, 2000)`)

`pollProgress` drives the loop with `setInterval(async () => { await ... },
2000)`.  `setInterval` fires its callback on a fixed schedule and does not
wait for the previous asynchronous callback to finish: callback `k`
(0-based) runs `2000·(k+1)` ms after `pollProgress`, provided no earlier
callback's handler has already reached `clearInterval` by then.  Each
callback immediately issues its `fetch`; the response is processed when the
transport answers, `latency` ms later. -/

/-- Time (ms after `pollProgress`) at which `setInterval` fires callback `k`. -/
def fireTime (k : ℕ) : ℕ := 2000 * (k + 1)

/-- A run of the poll loop: per-tick transport latency, and whether the
tick's outcome is terminal (completed / backend error / throw). -/
structure PollRun where
  latency : ℕ → ℕ
  terminal : ℕ → Bool

/-- Time at which tick `k`'s response (or error) is received and its handler
body runs: issue time plus transport latency. -/
def procTime (run : PollRun) (k : ℕ) : ℕ := fireTime k + run.latency k

/-- Whether a tick scheduled at `fireTime k` fires, given the earliest
`clearInterval` time so far (`none` = not yet cleared). -/
def tickFiresGiven (c : Option ℕ) (k : ℕ) : Bool :=
  match c with
  | none => true
  | some t => fireTime k < t

/-- Earliest `clearInterval` time among the fired terminal ticks with index
`< k` (each terminal tick's handler calls `clearInterval` at its processing
time). -/
def clearTimeBefore (run : PollRun) : ℕ → Option ℕ
  | 0 => none
  | k + 1 =>
    let c := clearTimeBefore run k
    if tickFiresGiven c k && run.terminal k then
      some (min (procTime run k) ((c.getD (procTime run k))))
    else c

/-- Whether `setInterval` fires tick `k`. -/
def tickFires (run : PollRun) (k : ℕ) : Bool :=
  tickFiresGiven (clearTimeBefore run k) k

/-! # Theorems

## The pivot scan of `convexHull` -/

theorem lexLtB_iff (a b : Point) : lexLtB a b = true ↔ toLex a < toLex b := by
  simp [lexLtB, Prod.Lex.lt_iff]

theorem lexLtB_eq_false_iff (a b : Point) : lexLtB a b = false ↔ toLex b ≤ toLex a := by
  rw [← Bool.not_eq_true, lexLtB_iff, not_lt]

theorem getD_eq_get {α : Type*} (l : List α) (d : α) {j : ℕ} (hj : j < l.length) :
    l.getD j d = l[j] := by
  simp [List.getD_eq_getElem?_getD, List.getElem?_eq_getElem hj]

/-- The `bottom` fold lands on one of the scanned indices (or the start) and
its point is lexicographically minimal among the start and all scanned
indices. -/
theorem foldl_bottomStep_spec (pts : List Point) (is : List ℕ) :
    ∀ b : ℕ,
      (is.foldl (bottomStep pts) b = b ∨ is.foldl (bottomStep pts) b ∈ is) ∧
      toLex (pts.getD (is.foldl (bottomStep pts) b) (0, 0)) ≤
        toLex (pts.getD b (0, 0)) ∧
      ∀ i ∈ is,
        toLex (pts.getD (is.foldl (bottomStep pts) b) (0, 0)) ≤
          toLex (pts.getD i (0, 0)) := by
  induction is with
  | nil => intro b; simp
  | cons i is ih =>
    intro b
    rw [List.foldl_cons]
    cases h : lexLtB (pts.getD i (0, 0)) (pts.getD b (0, 0)) with
    | true =>
      have hstep : bottomStep pts b i = i := by
        unfold bottomStep
        rw [if_pos h]
      rw [hstep]
      obtain ⟨hmem, hacc, hall⟩ := ih i
      have hlt : toLex (pts.getD i (0, 0)) < toLex (pts.getD b (0, 0)) :=
        (lexLtB_iff _ _).1 h
      refine ⟨Or.inr ?_, le_trans hacc hlt.le, ?_⟩
      · rcases hmem with hh | hin
        · rw [hh]; exact List.mem_cons_self _ _
        · exact List.mem_cons_of_mem _ hin
      · intro j hj
        rcases List.mem_cons.1 hj with rfl | hin
        · exact hacc
        · exact hall j hin
    | false =>
      have hstep : bottomStep pts b i = b := by
        unfold bottomStep
        rw [if_neg (by simp only [h]; exact Bool.false_ne_true)]
      rw [hstep]
      obtain ⟨hmem, hacc, hall⟩ := ih b
      have hle : toLex (pts.getD b (0, 0)) ≤ toLex (pts.getD i (0, 0)) :=
        (lexLtB_eq_false_iff _ _).1 h
      refine ⟨?_, hacc, ?_⟩
      · rcases hmem with hh | hin
        · exact Or.inl hh
        · exact Or.inr (List.mem_cons_of_mem _ hin)
      · intro j hj
        rcases List.mem_cons.1 hj with rfl | hin
        · exact le_trans hacc hle
        · exact hall j hin

/-- `bottomIdx` is a valid index whose point is lexicographically minimal
among all points of the list. -/
theorem bottomIdx_spec (pts : List Point) (h : pts ≠ []) :
    bottomIdx pts < pts.length ∧
    ∀ x ∈ pts, toLex (pts.getD (bottomIdx pts) (0, 0)) ≤ toLex x := by
  have hlen : 0 < pts.length := List.length_pos.2 h
  obtain ⟨hmem, hacc, hall⟩ :=
    foldl_bottomStep_spec pts (List.range' 1 (pts.length - 1)) 0
  rw [show (List.range' 1 (pts.length - 1)).foldl (bottomStep pts) 0 = bottomIdx pts
      from rfl] at hmem hacc hall
  have hbLt : bottomIdx pts < pts.length := by
    rcases hmem with h0 | hin
    · omega
    · rw [List.mem_range'] at hin
      obtain ⟨i, hi, hbi⟩ := hin
      omega
  refine ⟨hbLt, ?_⟩
  intro x hx
  obtain ⟨j, hj, rfl⟩ := List.mem_iff_getElem.1 hx
  rw [← getD_eq_get pts (0, 0) hj]
  rcases Nat.eq_zero_or_pos j with rfl | hjpos
  · exact hacc
  · refine hall j ?_
    rw [List.mem_range']
    exact ⟨j - 1, by omega, by omega⟩

/-! ## The swap `[points[0], points[bottom]] = [points[bottom], points[0]]` -/

theorem listSwap_zero_same {α : Type*} (l : List α) : listSwap l 0 0 = l := by
  cases l with
  | nil => rfl
  | cons a t => simp [listSwap]

theorem listSwap_cons_succ {α : Type*} (a : α) (t : List α) (k : ℕ)
    (hk : k < t.length) :
    listSwap (a :: t) 0 (k + 1) = t[k] :: t.set k a := by
  simp [listSwap, List.getElem?_cons_succ, List.getElem?_eq_getElem hk]

theorem listSwap_zero_perm {α : Type*} (l : List α) (j : ℕ) :
    (listSwap l 0 j).Perm l := by
  cases l with
  | nil => simp [listSwap]
  | cons a t =>
    cases j with
    | zero => rw [listSwap_zero_same]
    | succ k =>
      by_cases hk : k < t.length
      · rw [listSwap_cons_succ a t k hk]
        have hdecomp : t = t.take k ++ t[k] :: t.drop (k + 1) := by
          conv_lhs => rw [← List.take_append_drop k t]
          rw [List.drop_eq_getElem_cons hk]
        have hset : t.set k a = t.take k ++ a :: t.drop (k + 1) := by
          rw [List.set_eq_take_append_cons_drop, if_pos hk]
        rw [hset]
        have h1 : (t[k] :: (t.take k ++ a :: t.drop (k + 1))).Perm
            (t[k] :: a :: (t.take k ++ t.drop (k + 1))) :=
          List.Perm.cons _ List.perm_middle
        have h2 : (t[k] :: a :: (t.take k ++ t.drop (k + 1))).Perm
            (a :: t[k] :: (t.take k ++ t.drop (k + 1))) :=
          List.Perm.swap _ _ _
        have h3 : (a :: t[k] :: (t.take k ++ t.drop (k + 1))).Perm
            (a :: (t.take k ++ t[k] :: t.drop (k + 1))) :=
          List.Perm.cons _ List.perm_middle.symm
        have h4 := (h1.trans h2).trans h3
        rw [← hdecomp] at h4
        exact h4
      · have hnone : t[k]? = none := by
          rw [List.getElem?_eq_none]
          omega
        simp [listSwap, hnone]

theorem listSwap_zero_headD {α : Type*} (l : List α) (j : ℕ) (hj : j < l.length)
    (d : α) : (listSwap l 0 j).headD d = l.getD j d := by
  cases l with
  | nil => simp at hj
  | cons a t =>
    cases j with
    | zero =>
      rw [listSwap_zero_same]
      simp
    | succ k =>
      have hk : k < t.length := by simpa using hj
      rw [listSwap_cons_succ a t k hk]
      simp [List.getElem?_eq_getElem hk]

theorem headD_cons_tail {α : Type*} (l : List α) (h : l ≠ []) (d : α) :
    l.headD d :: l.tail = l := by
  cases l with
  | nil => exact absurd rfl h
  | cons a t => rfl

/-! ## `convexHull`: permutation and structure -/

theorem convexHull_short (P : List Point) (h : P.length < 3) : convexHull P = P := by
  unfold convexHull
  rw [if_pos h]

theorem convexHull_eq_cons (P : List Point) (h : 3 ≤ P.length) :
    convexHull P =
      P.getD (bottomIdx P) (0, 0) ::
        (listSwap P 0 (bottomIdx P)).tail.mergeSort
          (angleLe (P.getD (bottomIdx P) (0, 0))) := by
  have hne : P ≠ [] := by
    intro hnil
    rw [hnil] at h
    simp at h
  have hb := (bottomIdx_spec P hne).1
  unfold convexHull
  rw [if_neg (by omega)]
  show (listSwap P 0 (bottomIdx P)).headD (0, 0) ::
      (listSwap P 0 (bottomIdx P)).tail.mergeSort
        (angleLe ((listSwap P 0 (bottomIdx P)).headD (0, 0))) = _
  rw [listSwap_zero_headD P (bottomIdx P) hb (0, 0)]

theorem convexHull_perm (P : List Point) : (convexHull P).Perm P := by
  by_cases h : P.length < 3
  · rw [convexHull_short P h]
  · push_neg at h
    rw [convexHull_eq_cons P h]
    have hne : P ≠ [] := by
      intro hnil
      rw [hnil] at h
      simp at h
    have hb := (bottomIdx_spec P hne).1
    have hswapPerm : (listSwap P 0 (bottomIdx P)).Perm P := listSwap_zero_perm P _
    have hswapNe : listSwap P 0 (bottomIdx P) ≠ [] := by
      intro hnil
      have hl := hswapPerm.length_eq
      rw [hnil] at hl
      simp only [List.length_nil] at hl
      omega
    have h1 : (P.getD (bottomIdx P) (0, 0) ::
        (listSwap P 0 (bottomIdx P)).tail.mergeSort
          (angleLe (P.getD (bottomIdx P) (0, 0)))).Perm
        (P.getD (bottomIdx P) (0, 0) :: (listSwap P 0 (bottomIdx P)).tail) :=
      List.Perm.cons _ (List.mergeSort_perm _ _)
    have h2 : P.getD (bottomIdx P) (0, 0) :: (listSwap P 0 (bottomIdx P)).tail =
        listSwap P 0 (bottomIdx P) := by
      rw [← listSwap_zero_headD P (bottomIdx P) hb (0, 0)]
      exact headD_cons_tail _ hswapNe _
    rw [h2] at h1
    exact h1.trans hswapPerm

theorem convexHull_length (P : List Point) : (convexHull P).length = P.length :=
  (convexHull_perm P).length_eq

/-! ## The angular comparator is a total preorder -/

theorem angleLe_trans (p0 : Point) : ∀ a b c : Point,
    angleLe p0 a b → angleLe p0 b c → angleLe p0 a c := by
  intro a b c hab hbc
  simp only [angleLe, decide_eq_true_eq] at *
  exact le_trans hab hbc

theorem angleLe_total (p0 : Point) : ∀ a b : Point,
    angleLe p0 a b || angleLe p0 b a := by
  intro a b
  simp only [angleLe, Bool.or_eq_true, decide_eq_true_eq]
  exact le_total _ _

/-! ## `pseudoAngle` realises the `atan2` order on the upper half-plane -/

theorem pseudoAngle_zero (x : ℚ) :
    pseudoAngle 0 x = if 0 ≤ x then 0 else 2 := by
  unfold pseudoAngle
  simp

theorem pseudoAngle_pos_nonneg (y x : ℚ) (hy : 0 < y) (hx : 0 ≤ x) :
    pseudoAngle y x = y / (x + y) := by
  show (if 0 ≤ x then y / (|x| + |y|)
      else if 0 ≤ y then 2 - y / (|x| + |y|) else -2 - y / (|x| + |y|)) = _
  rw [if_pos hx, abs_of_nonneg hx, abs_of_pos hy]

theorem pseudoAngle_pos_neg (y x : ℚ) (hy : 0 < y) (hx : x < 0) :
    pseudoAngle y x = 2 - y / (-x + y) := by
  show (if 0 ≤ x then y / (|x| + |y|)
      else if 0 ≤ y then 2 - y / (|x| + |y|) else -2 - y / (|x| + |y|)) = _
  rw [if_neg (not_le.2 hx), if_pos hy.le, abs_of_neg hx, abs_of_pos hy]

theorem pseudoAngle_pos_nonneg_bounds (y x : ℚ) (hy : 0 < y) (hx : 0 ≤ x) :
    0 < pseudoAngle y x ∧ pseudoAngle y x ≤ 1 := by
  rw [pseudoAngle_pos_nonneg y x hy hx]
  constructor
  · exact div_pos hy (by linarith)
  · rw [div_le_one (by linarith)]
    linarith

theorem pseudoAngle_pos_neg_bounds (y x : ℚ) (hy : 0 < y) (hx : x < 0) :
    1 < pseudoAngle y x ∧ pseudoAngle y x < 2 := by
  rw [pseudoAngle_pos_neg y x hy hx]
  have hd : (0 : ℚ) < -x + y := by linarith
  have hr1 : y / (-x + y) < 1 := by
    rw [div_lt_one hd]
    linarith
  have hr0 : 0 < y / (-x + y) := div_pos hy hd
  constructor <;> linarith

/-- On the closed upper half-plane (`0 ≤ y`, the only region where
`convexHull`'s comparator is ever evaluated — every non-pivot point has
latitude ≥ the pivot's), comparing `pseudoAngle`s is exactly the polar-angle
(`Math.atan2`) order: first by coarse angle class, and within the open upper
half-plane by the orientation of the pair — the cross product
`x₁y₂ − y₁x₂` is nonnegative iff the first vector's angle is not larger.
This justifies `pseudoAngle` as an exact stand-in for the source's `atan2`
sort key. -/
theorem pseudoAngle_le_iff (y₁ x₁ y₂ x₂ : ℚ) (h₁ : 0 ≤ y₁) (h₂ : 0 ≤ y₂) :
    (pseudoAngle y₁ x₁ ≤ pseudoAngle y₂ x₂ ↔
      (upperClass y₁ x₁ < upperClass y₂ x₂ ∨
        (upperClass y₁ x₁ = upperClass y₂ x₂ ∧ 0 ≤ x₁ * y₂ - y₁ * x₂))) := by
  rcases h₁.lt_or_eq with hy₁ | hy₁
  · rcases h₂.lt_or_eq with hy₂ | hy₂
    · have hc₁ : upperClass y₁ x₁ = 1 := by
        unfold upperClass
        rw [if_pos hy₁]
      have hc₂ : upperClass y₂ x₂ = 1 := by
        unfold upperClass
        rw [if_pos hy₂]
      rw [hc₁, hc₂]
      simp only [lt_self_iff_false, false_or, true_and]
      rcases le_or_lt 0 x₁ with hx₁ | hx₁ <;> rcases le_or_lt 0 x₂ with hx₂ | hx₂
      · rw [pseudoAngle_pos_nonneg y₁ x₁ hy₁ hx₁,
          pseudoAngle_pos_nonneg y₂ x₂ hy₂ hx₂,
          div_le_div_iff₀ (by linarith) (by linarith)]
        constructor <;> intro hh <;> nlinarith
      · have hL : pseudoAngle y₁ x₁ ≤ pseudoAngle y₂ x₂ := by
          have b₁ := pseudoAngle_pos_nonneg_bounds y₁ x₁ hy₁ hx₁
          have b₂ := pseudoAngle_pos_neg_bounds y₂ x₂ hy₂ hx₂
          linarith [b₁.2, b₂.1]
        have hR : 0 ≤ x₁ * y₂ - y₁ * x₂ := by nlinarith
        simp [hL, hR]
      · have hL : ¬ pseudoAngle y₁ x₁ ≤ pseudoAngle y₂ x₂ := by
          rw [not_le]
          have b₁ := pseudoAngle_pos_neg_bounds y₁ x₁ hy₁ hx₁
          have b₂ := pseudoAngle_pos_nonneg_bounds y₂ x₂ hy₂ hx₂
          linarith [b₁.1, b₂.2]
        have hR : ¬ (0 : ℚ) ≤ x₁ * y₂ - y₁ * x₂ := by
          rw [not_le]
          nlinarith
        simp [hL, hR]
      · rw [pseudoAngle_pos_neg y₁ x₁ hy₁ hx₁, pseudoAngle_pos_neg y₂ x₂ hy₂ hx₂]
        have hd₁ : (0 : ℚ) < -x₁ + y₁ := by linarith
        have hd₂ : (0 : ℚ) < -x₂ + y₂ := by linarith
        constructor
        · intro hh
          have hr : y₂ / (-x₂ + y₂) ≤ y₁ / (-x₁ + y₁) := by linarith
          rw [div_le_div_iff₀ hd₂ hd₁] at hr
          nlinarith
        · intro hh
          have hr : y₂ / (-x₂ + y₂) ≤ y₁ / (-x₁ + y₁) := by
            rw [div_le_div_iff₀ hd₂ hd₁]
            nlinarith
          linarith
    · subst hy₂
      have hc₁ : upperClass y₁ x₁ = 1 := by
        unfold upperClass
        rw [if_pos hy₁]
      rw [hc₁, pseudoAngle_zero]
      rcases le_or_lt 0 x₂ with hx₂ | hx₂
      · have hc₂ : upperClass 0 x₂ = 0 := by
          unfold upperClass
          rw [if_neg (lt_irrefl 0), if_pos hx₂]
        rw [hc₂, if_pos hx₂]
        have hLfalse : ¬ pseudoAngle y₁ x₁ ≤ 0 := by
          rw [not_le]
          rcases le_or_lt 0 x₁ with hx₁ | hx₁
          · exact (pseudoAngle_pos_nonneg_bounds y₁ x₁ hy₁ hx₁).1
          · have hb := (pseudoAngle_pos_neg_bounds y₁ x₁ hy₁ hx₁).1
            linarith
        simp [hLfalse]
      · have hc₂ : upperClass 0 x₂ = 2 := by
          unfold upperClass
          rw [if_neg (lt_irrefl 0), if_neg (not_le.2 hx₂)]
        rw [hc₂, if_neg (not_le.2 hx₂)]
        have hLtrue : pseudoAngle y₁ x₁ ≤ 2 := by
          rcases le_or_lt 0 x₁ with hx₁ | hx₁
          · have hb := (pseudoAngle_pos_nonneg_bounds y₁ x₁ hy₁ hx₁).2
            linarith
          · exact (pseudoAngle_pos_neg_bounds y₁ x₁ hy₁ hx₁).2.le
        simp [hLtrue]
  · subst hy₁
    rw [pseudoAngle_zero]
    rcases h₂.lt_or_eq with hy₂ | hy₂
    · have hc₂ : upperClass y₂ x₂ = 1 := by
        unfold upperClass
        rw [if_pos hy₂]
      rw [hc₂]
      rcases le_or_lt 0 x₁ with hx₁ | hx₁
      · have hc₁ : upperClass 0 x₁ = 0 := by
          unfold upperClass
          rw [if_neg (lt_irrefl 0), if_pos hx₁]
        rw [hc₁, if_pos hx₁]
        have hLtrue : (0 : ℚ) ≤ pseudoAngle y₂ x₂ := by
          rcases le_or_lt 0 x₂ with hx₂ | hx₂
          · exact (pseudoAngle_pos_nonneg_bounds y₂ x₂ hy₂ hx₂).1.le
          · have hb := (pseudoAngle_pos_neg_bounds y₂ x₂ hy₂ hx₂).1
            linarith
        simp [hLtrue]
      · have hc₁ : upperClass 0 x₁ = 2 := by
          unfold upperClass
          rw [if_neg (lt_irrefl 0), if_neg (not_le.2 hx₁)]
        rw [hc₁, if_neg (not_le.2 hx₁)]
        have hLfalse : ¬ (2 : ℚ) ≤ pseudoAngle y₂ x₂ := by
          rw [not_le]
          rcases le_or_lt 0 x₂ with hx₂ | hx₂
          · have hb := (pseudoAngle_pos_nonneg_bounds y₂ x₂ hy₂ hx₂).2
            linarith
          · exact (pseudoAngle_pos_neg_bounds y₂ x₂ hy₂ hx₂).2
        simp [hLfalse]
    · subst hy₂
      rw [pseudoAngle_zero]
      unfold upperClass
      rcases le_or_lt 0 x₁ with hx₁ | hx₁ <;> rcases le_or_lt 0 x₂ with hx₂ | hx₂ <;>
        simp [hx₁, hx₂, not_le.2, lt_irrefl]


/-! ## Idempotence machinery -/

theorem foldl_bottomStep_stay (pts : List Point) (is : List ℕ)
    (h : ∀ i ∈ is, lexLtB (pts.getD i (0, 0)) (pts.getD 0 (0, 0)) = false) :
    is.foldl (bottomStep pts) 0 = 0 := by
  induction is with
  | nil => rfl
  | cons i is ih =>
    rw [List.foldl_cons]
    have hstep : bottomStep pts 0 i = 0 := by
      unfold bottomStep
      rw [if_neg (by
        simp only [h i (List.mem_cons_self i is)]
        exact Bool.false_ne_true)]
    rw [hstep]
    exact ih fun j hj => h j (List.mem_cons_of_mem _ hj)

theorem bottomIdx_eq_zero (pts : List Point)
    (h : ∀ x ∈ pts, toLex (pts.getD 0 (0, 0)) ≤ toLex x) : bottomIdx pts = 0 := by
  unfold bottomIdx
  apply foldl_bottomStep_stay
  intro i hi
  rw [List.mem_range'] at hi
  obtain ⟨m, hm, him⟩ := hi
  have hilen : i < pts.length := by omega
  rw [lexLtB_eq_false_iff]
  rw [getD_eq_get pts (0, 0) hilen]
  exact h _ (List.getElem_mem hilen)

/-- Applying `convexHull` a second time to its own (≥ 3 point) output is the
identity: the pivot is already in front, and the tail is already sorted. -/
theorem convexHull_idem (P : List Point) (h : 3 ≤ P.length) :
    convexHull (convexHull P) = convexHull P := by
  have hne : P ≠ [] := by
    intro hnil
    rw [hnil] at h
    simp at h
  obtain ⟨hb, hmin⟩ := bottomIdx_spec P hne
  have hQ : convexHull P =
      P.getD (bottomIdx P) (0, 0) ::
        (listSwap P 0 (bottomIdx P)).tail.mergeSort
          (angleLe (P.getD (bottomIdx P) (0, 0))) := convexHull_eq_cons P h
  set p0 := P.getD (bottomIdx P) (0, 0) with hp0
  set R := (listSwap P 0 (bottomIdx P)).tail.mergeSort (angleLe p0) with hR
  have hperm : (convexHull P).Perm P := convexHull_perm P
  have hlen3 : 3 ≤ (p0 :: R).length := by
    rw [← hQ, convexHull_length]
    exact h
  have hmem : ∀ x ∈ (p0 :: R), x ∈ P := by
    intro x hx
    rw [← hQ] at hx
    exact hperm.mem_iff.1 hx
  have hz : bottomIdx (p0 :: R) = 0 := by
    apply bottomIdx_eq_zero
    intro x hx
    have hx' : toLex p0 ≤ toLex x := hmin x (hmem x hx)
    simpa using hx'
  have hsorted : R.Pairwise (fun a b => angleLe p0 a b = true) := by
    rw [hR]
    exact List.sorted_mergeSort (angleLe_trans p0) (angleLe_total p0) _
  rw [hQ]
  rw [convexHull_eq_cons (p0 :: R) hlen3]
  rw [hz, listSwap_zero_same]
  simp only [List.getD_cons_zero, List.tail_cons]
  exact congrArg (p0 :: ·) (List.mergeSort_of_sorted hsorted)

/-! ## Shoelace sums: loop embedding vs. spec formula, rotation invariance -/

theorem sum_map_eq_sum_range {α : Type*} (g : α → ℚ) (d : α) (l : List α) :
    (l.map g).sum = ∑ i ∈ Finset.range l.length, g (l.getD i d) := by
  induction l with
  | nil => simp
  | cons a t ih =>
    rw [List.map_cons, List.sum_cons, ih, List.length_cons, Finset.sum_range_succ']
    simp [add_comm]

theorem zip_rotate_sum (f : Point → Point → ℚ) (pts : List Point) :
    ((pts.zip (pts.rotate 1)).map fun q => f q.1 q.2).sum =
      ∑ i ∈ Finset.range pts.length,
        f (pts.getD i (0, 0)) (pts.getD ((i + 1) % pts.length) (0, 0)) := by
  have hlen : (pts.zip (pts.rotate 1)).length = pts.length := by
    simp [List.length_zip, List.length_rotate]
  rw [sum_map_eq_sum_range (fun q => f q.1 q.2) ((0, 0), (0, 0)), hlen]
  apply Finset.sum_congr rfl
  intro i hi
  rw [Finset.mem_range] at hi
  have hn : 0 < pts.length := by omega
  have hiz : i < (pts.zip (pts.rotate 1)).length := by
    rw [hlen]
    exact hi
  rw [getD_eq_get _ _ hiz, List.getElem_zip, List.getElem_rotate,
    getD_eq_get pts (0, 0) hi, getD_eq_get pts (0, 0) (Nat.mod_lt _ hn)]

theorem specShoelace_eq (pts : List Point) : specShoelace pts = shoelaceSum pts :=
  zip_rotate_sum crossProduct pts

theorem specWeightedLat_eq (pts : List Point) :
    specWeightedLat pts = centroidLatSum pts :=
  zip_rotate_sum (fun a b => (a.1 + b.1) * crossProduct a b) pts

theorem specWeightedLng_eq (pts : List Point) :
    specWeightedLng pts = centroidLngSum pts :=
  zip_rotate_sum (fun a b => (a.2 + b.2) * crossProduct a b) pts

theorem sum_range_cycle (n : ℕ) (f : ℕ → ℚ) :
    ∑ i ∈ Finset.range n, f ((i + 1) % n) = ∑ i ∈ Finset.range n, f i := by
  rcases Nat.eq_zero_or_pos n with rfl | hn
  · simp
  · refine Finset.sum_nbij' (fun i => (i + 1) % n) (fun j => (j + (n - 1)) % n)
      ?_ ?_ ?_ ?_ ?_
    · intro a ha
      rw [Finset.mem_range] at *
      exact Nat.mod_lt _ hn
    · intro a ha
      rw [Finset.mem_range] at *
      exact Nat.mod_lt _ hn
    · intro a ha
      rw [Finset.mem_range] at ha
      show ((a + 1) % n + (n - 1)) % n = a
      rw [Nat.mod_add_mod]
      have hsum : a + 1 + (n - 1) = a + n := by omega
      rw [hsum, Nat.add_mod_right]
      exact Nat.mod_eq_of_lt ha
    · intro a ha
      rw [Finset.mem_range] at ha
      show ((a + (n - 1)) % n + 1) % n = a
      rw [Nat.mod_add_mod]
      have hsum : a + (n - 1) + 1 = a + n := by omega
      rw [hsum, Nat.add_mod_right]
      exact Nat.mod_eq_of_lt ha
    · intro a ha
      rfl

theorem shoelaceSum_rotate_one (l : List Point) :
    shoelaceSum (l.rotate 1) = shoelaceSum l := by
  rcases eq_or_ne l [] with rfl | hne
  · simp [shoelaceSum]
  · have hn : 0 < l.length := List.length_pos.2 hne
    unfold shoelaceSum
    rw [List.length_rotate]
    have hstep : ∀ i ∈ Finset.range l.length,
        crossProduct ((l.rotate 1).getD i (0, 0))
            ((l.rotate 1).getD ((i + 1) % l.length) (0, 0)) =
          crossProduct (l.getD ((i + 1) % l.length) (0, 0))
            (l.getD (((i + 1) % l.length + 1) % l.length) (0, 0)) := by
      intro i hi
      rw [Finset.mem_range] at hi
      have h1 : i < (l.rotate 1).length := by
        rw [List.length_rotate]
        exact hi
      have h2 : (i + 1) % l.length < (l.rotate 1).length := by
        rw [List.length_rotate]
        exact Nat.mod_lt _ hn
      rw [getD_eq_get _ _ h1, getD_eq_get _ _ h2, List.getElem_rotate,
        List.getElem_rotate, getD_eq_get l (0, 0) (Nat.mod_lt _ hn),
        getD_eq_get l (0, 0) (Nat.mod_lt _ hn)]
    rw [Finset.sum_congr rfl hstep]
    exact sum_range_cycle l.length
      fun j => crossProduct (l.getD j (0, 0)) (l.getD ((j + 1) % l.length) (0, 0))

theorem shoelaceSum_rotate (l : List Point) (k : ℕ) :
    shoelaceSum (l.rotate k) = shoelaceSum l := by
  induction k with
  | zero => simp
  | succ k ih =>
    rw [← List.rotate_rotate, shoelaceSum_rotate_one, ih]

/-- The ≥ 3-point branch of `calculatePolygonCentroid`, with the `area`
binding expanded. -/
theorem calculatePolygonCentroid_big (pts : List Point) (h3 : 3 ≤ pts.length) :
    calculatePolygonCentroid pts =
      if |shoelaceSum pts * (1 / 2)| < 1 / 10 ^ 10 then
        ((pts.map Prod.fst).sum / pts.length, (pts.map Prod.snd).sum / pts.length)
      else
        (centroidLatSum pts / (6 * (shoelaceSum pts * (1 / 2))),
         centroidLngSum pts / (6 * (shoelaceSum pts * (1 / 2)))) := by
  unfold calculatePolygonCentroid
  rw [if_neg (by omega), if_neg (by omega), if_neg (by omega)]

/-! ## Claim theorems: geometry -/

/-- **C2.** `calculatePolygonCentroid` returns: for 1 point, that point; for
2 points, their midpoint; for ≥ 3 points the signed-area-weighted shoelace
centroid with `A = ½Σ(xᵢyᵢ₊₁ − xᵢ₊₁yᵢ)`,
`Cx = (1/6A)Σ(xᵢ+xᵢ₊₁)(xᵢyᵢ₊₁−xᵢ₊₁yᵢ)` and `Cy` analogously; and whenever
`|A| < 1e-10` it falls back to the arithmetic mean, so no division by a
near-zero `A` occurs. -/
theorem c2_centroid_cases (pts : List Point) :
    (∀ a : Point, pts = [a] → calculatePolygonCentroid pts = a) ∧
    (∀ a b : Point, pts = [a, b] →
      calculatePolygonCentroid pts = specMidpoint a b) ∧
    (3 ≤ pts.length →
      (|specShoelace pts / 2| < 1 / 10 ^ 10 →
        calculatePolygonCentroid pts = specMean pts) ∧
      (1 / 10 ^ 10 ≤ |specShoelace pts / 2| →
        calculatePolygonCentroid pts =
          (1 / (6 * (specShoelace pts / 2)) * specWeightedLat pts,
           1 / (6 * (specShoelace pts / 2)) * specWeightedLng pts))) := by
  refine ⟨?_, ?_, ?_⟩
  · rintro a rfl
    simp [calculatePolygonCentroid]
  · rintro a b rfl
    simp [calculatePolygonCentroid, specMidpoint]
  · intro h3
    have harea : shoelaceSum pts * (1 / 2) = specShoelace pts / 2 := by
      rw [specShoelace_eq]
      ring
    constructor
    · intro hlt
      rw [calculatePolygonCentroid_big pts h3, harea, if_pos hlt]
      rfl
    · intro hge
      rw [calculatePolygonCentroid_big pts h3, harea, if_neg (not_lt.2 hge)]
      rw [← specWeightedLat_eq, ← specWeightedLng_eq, Prod.mk.injEq]
      constructor <;> ring

/-- Witness for C2: three collinear points take the degenerate (mean)
branch. -/
theorem c2_centroid_cases_witness :
    3 ≤ ([((0 : ℚ), (0 : ℚ)), (1, 1), (2, 2)] : List Point).length ∧
    |specShoelace [((0 : ℚ), (0 : ℚ)), (1, 1), (2, 2)] / 2| < 1 / 10 ^ 10 ∧
    calculatePolygonCentroid [((0 : ℚ), (0 : ℚ)), (1, 1), (2, 2)] =
      specMean [((0 : ℚ), (0 : ℚ)), (1, 1), (2, 2)] := by
  have hS : specShoelace [((0 : ℚ), (0 : ℚ)), (1, 1), (2, 2)] = 0 := by
    norm_num [specShoelace, List.rotate_cons_succ, List.rotate_zero]
  refine ⟨by simp, ?_, ?_⟩
  · rw [hS]
    norm_num
  · refine ((c2_centroid_cases _).2.2 (by simp)).1 ?_
    rw [hS]
    norm_num

/-- **C3 counterexample.** At the 4 points `(0,0), (10,0), (0,10)` plus the
strictly interior `(1,1)`, `convexHull` returns all 4 points — the source
has no point-dropping step — so the result is not a hull of ≤ 3 points and
the interior point is still present. -/
theorem c3_counterexample :
    strictlyInsideTriangle (0, 0) (10, 0) (0, 10) (1, 1) ∧
    ¬ (convexHull [((0 : ℚ), (0 : ℚ)), (10, 0), (0, 10), (1, 1)]).length ≤ 3 ∧
    ((1 : ℚ), (1 : ℚ)) ∈
      convexHull [((0 : ℚ), (0 : ℚ)), (10, 0), (0, 10), (1, 1)] := by
  refine ⟨Or.inl ⟨?_, ?_, ?_⟩, ?_, ?_⟩
  · norm_num [cross3]
  · norm_num [cross3]
  · norm_num [cross3]
  · rw [convexHull_length]
    simp
  · exact (convexHull_perm _).mem_iff.2 (by simp)

/-- **C3 (amended).** `convexHull` applied to exactly 4 points of which one
lies strictly inside the triangle formed by the other three returns all 4
points (the interior point is retained, not dropped): the function only
reorders its input. -/
theorem c3_amended_interior_retained (a b c p : Point)
    (_h : strictlyInsideTriangle a b c p) :
    (convexHull [a, b, c, p]).length = 4 ∧ p ∈ convexHull [a, b, c, p] := by
  constructor
  · rw [convexHull_length]
    rfl
  · exact (convexHull_perm _).mem_iff.2 (by simp)

/-- Witness for the amended C3. -/
theorem c3_amended_witness :
    strictlyInsideTriangle (0, 0) (10, 0) (0, 10) ((1 : ℚ), (1 : ℚ)) ∧
    (convexHull [((0 : ℚ), (0 : ℚ)), (10, 0), (0, 10), (1, 1)]).length = 4 ∧
    ((1 : ℚ), (1 : ℚ)) ∈
      convexHull [((0 : ℚ), (0 : ℚ)), (10, 0), (0, 10), (1, 1)] := by
  have hin : strictlyInsideTriangle (0, 0) (10, 0) (0, 10) ((1 : ℚ), (1 : ℚ)) := by
    refine Or.inl ⟨?_, ?_, ?_⟩ <;> norm_num [cross3]
  exact ⟨hin, c3_amended_interior_retained _ _ _ _ hin⟩

/-- **C4 counterexample.** `calculatePolygonCentroid []` does not fail: the
source's first branch returns the coordinate value `[0, 0]`, and the
function has no failure path at all. -/
theorem c4_counterexample :
    calculatePolygonCentroid [] = ((0 : ℚ), (0 : ℚ)) := by
  simp [calculatePolygonCentroid]

/-- **C4 (amended).** For an empty input the (total) centroid function
returns the coordinate `(0, 0)` rather than failing with `InvalidGeometry`. -/
theorem c4_amended_empty_returns_origin (pts : List Point)
    (h : pts.length = 0) : calculatePolygonCentroid pts = (0, 0) := by
  rw [List.length_eq_zero] at h
  rw [h]
  simp [calculatePolygonCentroid]

/-- Witness for the amended C4. -/
theorem c4_amended_witness :
    ([] : List Point).length = 0 ∧
    calculatePolygonCentroid [] = ((0 : ℚ), (0 : ℚ)) :=
  ⟨rfl, c4_amended_empty_returns_origin [] rfl⟩

/-- **C7.** For ≥ 3 vertices, `calculatePolygonArea` equals
`|Σ(xᵢyᵢ₊₁ − xᵢ₊₁yᵢ)| / 2 · 111²` on the planar `(lat, lon)` coordinates,
and the value is invariant under every cyclic rotation of the vertex list. -/
theorem c7_area_shoelace_rotation_invariant (pts : List Point)
    (h : 3 ≤ pts.length) :
    calculatePolygonArea pts = |specShoelace pts| / 2 * (111 * 111) ∧
    ∀ k : ℕ, calculatePolygonArea (pts.rotate k) = calculatePolygonArea pts := by
  constructor
  · unfold calculatePolygonArea
    rw [if_neg (by omega), specShoelace_eq]
    ring
  · intro k
    unfold calculatePolygonArea
    rw [List.length_rotate, shoelaceSum_rotate]

/-- Witness for C7 at a concrete triangle, rotated by one. -/
theorem c7_area_witness :
    3 ≤ ([((0 : ℚ), (0 : ℚ)), (1, 0), (0, 1)] : List Point).length ∧
    calculatePolygonArea
        (([((0 : ℚ), (0 : ℚ)), (1, 0), (0, 1)] : List Point).rotate 1) =
      calculatePolygonArea [((0 : ℚ), (0 : ℚ)), (1, 0), (0, 1)] :=
  ⟨by simp, (c7_area_shoelace_rotation_invariant _ (by simp)).2 1⟩

/-- **C8.** The committed vertex list never exceeds 8 points: a click at 8
points is rejected with the "maximum reached" alert and changes nothing (and
the handler is a total function — no exception); every other click keeps the
count at most 8. -/
theorem c8_click_cap (pts : List Point) (p : Point) (h : pts.length ≤ 8) :
    (clickHandlerStep pts p).1.length ≤ 8 ∧
    (pts.length = 8 → clickHandlerStep pts p = (pts, true)) := by
  constructor
  · unfold clickHandlerStep
    by_cases h1 : pts.length < 8
    · rw [if_pos h1]
      show (if 3 ≤ (pts ++ [p]).length then (convexHull (pts ++ [p]), false)
          else (pts ++ [p], false)).1.length ≤ 8
      by_cases h2 : 3 ≤ (pts ++ [p]).length
      · rw [if_pos h2]
        simp only [convexHull_length, List.length_append, List.length_cons,
          List.length_nil]
        omega
      · rw [if_neg h2]
        simp only [List.length_append, List.length_cons, List.length_nil]
        omega
    · rw [if_neg h1]
      simpa using h
  · intro h8
    unfold clickHandlerStep
    rw [if_neg (by omega)]

/-- Witness for C8 at the cap: 8 points, a 9th click. -/
theorem c8_click_cap_witness :
    ([((0 : ℚ), (0 : ℚ)), (1, 0), (2, 0), (3, 0), (4, 0), (5, 0), (6, 0),
        (7, 0)] : List Point).length ≤ 8 ∧
    clickHandlerStep
        [((0 : ℚ), (0 : ℚ)), (1, 0), (2, 0), (3, 0), (4, 0), (5, 0), (6, 0),
          (7, 0)] (9, 9) =
      ([((0 : ℚ), (0 : ℚ)), (1, 0), (2, 0), (3, 0), (4, 0), (5, 0), (6, 0),
          (7, 0)], true) :=
  ⟨by simp, (c8_click_cap _ _ (by simp)).2 (by simp)⟩

/-- **C9.** `convexHull` is idempotent on point sets of size ≥ 3:
`convexHull (convexHull P) = convexHull P`. -/
theorem c9_convexHull_idempotent (P : List Point) (h : 3 ≤ P.length) :
    convexHull (convexHull P) = convexHull P :=
  convexHull_idem P h

/-- Witness for C9 at a concrete 4-point input. -/
theorem c9_convexHull_idempotent_witness :
    3 ≤ ([((0 : ℚ), (0 : ℚ)), (10, 0), (0, 10), (1, 1)] : List Point).length ∧
    convexHull (convexHull [((0 : ℚ), (0 : ℚ)), (10, 0), (0, 10), (1, 1)]) =
      convexHull [((0 : ℚ), (0 : ℚ)), (10, 0), (0, 10), (1, 1)] :=
  ⟨by simp, c9_convexHull_idempotent _ (by simp)⟩

/-- **C10.** For every input list of points, `convexHull` returns a
permutation of exactly the input points — nothing is removed, added, or
modified, so the output length equals the input length; for fewer than 3
points the input is returned unchanged. -/
theorem c10_convexHull_is_permutation (P : List Point) :
    (convexHull P).Perm P ∧ (convexHull P).length = P.length ∧
    (P.length < 3 → convexHull P = P) :=
  ⟨convexHull_perm P, convexHull_length P, convexHull_short P⟩

/-- Witness for C10 (discharging the `< 3` implication at a singleton). -/
theorem c10_convexHull_is_permutation_witness :
    (convexHull [((1 : ℚ), (2 : ℚ))]).Perm [((1 : ℚ), (2 : ℚ))] ∧
    convexHull [((1 : ℚ), (2 : ℚ))] = [((1 : ℚ), (2 : ℚ))] :=
  ⟨(c10_convexHull_is_permutation _).1,
   (c10_convexHull_is_permutation _).2.2 (by simp)⟩

/-! ## Poll-loop lemmas -/

theorem runTicks_inactive {σ χ : Type} (s : ClientState σ χ)
    (h : s.intervalActive = false) (l : List (TickOutcome σ χ)) :
    runTicks s l = s := by
  cases l with
  | nil => rfl
  | cons o rest =>
    unfold runTicks
    rw [if_neg (by rw [h]; exact Bool.false_ne_true)]

theorem runTicks_cons_active {σ χ : Type} (s : ClientState σ χ)
    (o : TickOutcome σ χ) (rest : List (TickOutcome σ χ))
    (h : s.intervalActive = true) :
    runTicks s (o :: rest) = runTicks (tickStep s o) rest := by
  show (if s.intervalActive = true then runTicks (tickStep s o) rest else s) =
    runTicks (tickStep s o) rest
  rw [if_pos h]

theorem runTicks_stop {σ χ : Type} (s : ClientState σ χ) (o : TickOutcome σ χ)
    (rest : List (TickOutcome σ χ)) (hAct : s.intervalActive = true)
    (hstop : (tickStep s o).intervalActive = false) :
    runTicks s (o :: rest) = tickStep s o := by
  rw [runTicks_cons_active s o rest hAct, runTicks_inactive _ hstop]

theorem predRunTicks_inactive {ρ : Type} (s : PredState ρ)
    (h : s.intervalActive = false) (l : List (PredTickOutcome ρ)) :
    predRunTicks s l = s := by
  cases l with
  | nil => rfl
  | cons o rest =>
    unfold predRunTicks
    rw [if_neg (by rw [h]; exact Bool.false_ne_true)]

theorem predRunTicks_cons_active {ρ : Type} (s : PredState ρ)
    (o : PredTickOutcome ρ) (rest : List (PredTickOutcome ρ))
    (h : s.intervalActive = true) :
    predRunTicks s (o :: rest) = predRunTicks (predTickStep s o) rest := by
  show (if s.intervalActive = true then predRunTicks (predTickStep s o) rest
      else s) = predRunTicks (predTickStep s o) rest
  rw [if_pos h]

theorem predRunTicks_stop {ρ : Type} (s : PredState ρ) (o : PredTickOutcome ρ)
    (rest : List (PredTickOutcome ρ)) (hAct : s.intervalActive = true)
    (hstop : (predTickStep s o).intervalActive = false) :
    predRunTicks s (o :: rest) = predTickStep s o := by
  rw [predRunTicks_cons_active s o rest hAct, predRunTicks_inactive _ hstop]

theorem tickStep_preserves_taskId {σ χ : Type} (s : ClientState σ χ)
    (o : TickOutcome σ χ) : (tickStep s o).currentTaskId = s.currentTaskId := by
  cases o with
  | ok r =>
    cases hc : r.completed <;> cases he : strTruthy r.error <;>
      simp [tickStep, hc, he]
  | thrown e => rfl

theorem runTicks_taskId {σ χ : Type} (s : ClientState σ χ)
    (l : List (TickOutcome σ χ)) :
    (runTicks s l).currentTaskId = s.currentTaskId := by
  induction l generalizing s with
  | nil => rfl
  | cons o rest ih =>
    unfold runTicks
    by_cases h : s.intervalActive = true
    · rw [if_pos h, ih, tickStep_preserves_taskId]
    · rw [if_neg h]

/-- Invariant of the poll handler: `isAnalyzing` and the interval are turned
off together (every branch that calls `clearInterval` also calls
`setIsAnalyzing(false)`, and no other branch touches either). -/
theorem tickStep_analyzing_eq_interval {σ χ : Type} (s : ClientState σ χ)
    (o : TickOutcome σ χ) (h : s.isAnalyzing = s.intervalActive) :
    (tickStep s o).isAnalyzing = (tickStep s o).intervalActive := by
  cases o with
  | ok r =>
    cases hc : r.completed <;> cases he : strTruthy r.error <;>
      simp [tickStep, hc, he, h]
  | thrown e => simp [tickStep]

theorem runTicks_analyzing_eq_interval {σ χ : Type} (s : ClientState σ χ)
    (l : List (TickOutcome σ χ)) (h : s.isAnalyzing = s.intervalActive) :
    (runTicks s l).isAnalyzing = (runTicks s l).intervalActive := by
  induction l generalizing s with
  | nil => exact h
  | cons o rest ih =>
    unfold runTicks
    by_cases ha : s.intervalActive = true
    · rw [if_pos ha]
      exact ih _ (tickStep_analyzing_eq_interval s o h)
    · rw [if_neg ha]
      exact h

/-! ## Claim theorems: the asynchronous task client -/

/-- **C1.** For every tick of the progress-poll loop started after a
successful submit (both `WeatherForm` and `PredictionForm`): a response with
`completed = true` stops the loop, stores the returned summary/result (and
charts), and no further poll callback fires for that task; a response with a
truthy (non-empty) `error` stops the loop and records that error message; a
thrown/network error stops the loop and records a non-empty error message;
any other response only stores the new progress data and the loop
continues. -/
theorem c1_poll_tick_behavior {σ χ ρ : Type} (s : ClientState σ χ)
    (t : PredState ρ) (o : TickOutcome σ χ) (q : PredTickOutcome ρ)
    (rest : List (TickOutcome σ χ)) (prest : List (PredTickOutcome ρ))
    (hAct : s.intervalActive = true) (hwf : o.wf)
    (hActP : t.intervalActive = true) (hqwf : q.wf) :
    (∀ r, o = .ok r → r.completed = true →
      (tickStep s o).intervalActive = false ∧
      (tickStep s o).isAnalyzing = false ∧
      (tickStep s o).progress = some r ∧
      (∀ v, r.summary = some v → (tickStep s o).analysisResults = some v) ∧
      (∀ v, r.charts = some v → (tickStep s o).charts = some v) ∧
      runTicks s (o :: rest) = tickStep s o) ∧
    (∀ r, o = .ok r → r.completed = false → strTruthy r.error = true →
      (tickStep s o).intervalActive = false ∧
      (tickStep s o).isAnalyzing = false ∧
      (tickStep s o).error = r.error ∧
      runTicks s (o :: rest) = tickStep s o) ∧
    (∀ e, o = .thrown e →
      (tickStep s o).intervalActive = false ∧
      (tickStep s o).isAnalyzing = false ∧
      (∃ m, (tickStep s o).error = some m ∧ m ≠ "") ∧
      runTicks s (o :: rest) = tickStep s o) ∧
    (∀ r, o = .ok r → r.completed = false → strTruthy r.error = false →
      tickStep s o = { s with progress := some r } ∧
      (tickStep s o).intervalActive = true ∧
      runTicks s (o :: rest) = runTicks (tickStep s o) rest) ∧
    (∀ r, q = .ok r → r.completed = true →
      (predTickStep t q).intervalActive = false ∧
      (predTickStep t q).progress = some r ∧
      (∀ v, r.result = some v → (predTickStep t q).predictionResults = some v) ∧
      predRunTicks t (q :: prest) = predTickStep t q) ∧
    (∀ r, q = .ok r → r.completed = false → strTruthy r.error = true →
      (predTickStep t q).intervalActive = false ∧
      (predTickStep t q).error = r.error ∧
      predRunTicks t (q :: prest) = predTickStep t q) ∧
    (∀ e, q = .thrown e →
      (predTickStep t q).intervalActive = false ∧
      (∃ m, (predTickStep t q).error = some m ∧ m ≠ "") ∧
      predRunTicks t (q :: prest) = predTickStep t q) ∧
    (∀ r, q = .ok r → r.completed = false → strTruthy r.error = false →
      predTickStep t q = { t with progress := some r } ∧
      predRunTicks t (q :: prest) = predRunTicks (predTickStep t q) prest) := by
  refine ⟨?_, ?_, ?_, ?_, ?_, ?_, ?_, ?_⟩
  · rintro r rfl hc
    have hstop : (tickStep s (.ok r)).intervalActive = false := by
      cases he : strTruthy r.error <;> simp [tickStep, hc, he]
    refine ⟨hstop, ?_, ?_, ?_, ?_, runTicks_stop s _ rest hAct hstop⟩
    · cases he : strTruthy r.error <;> simp [tickStep, hc, he]
    · cases he : strTruthy r.error <;> simp [tickStep, hc, he]
    · intro v hv
      cases he : strTruthy r.error <;> simp [tickStep, hc, he, hv]
    · intro v hv
      cases he : strTruthy r.error <;> simp [tickStep, hc, he, hv]
  · rintro r rfl hc he
    have hstop : (tickStep s (.ok r)).intervalActive = false := by
      simp [tickStep, hc, he]
    refine ⟨hstop, ?_, ?_, runTicks_stop s _ rest hAct hstop⟩
    · simp [tickStep, hc, he]
    · simp [tickStep, hc, he]
  · rintro e rfl
    have hstop : (tickStep s (.thrown e)).intervalActive = false := by
      simp [tickStep]
    refine ⟨hstop, by simp [tickStep], ?_, runTicks_stop s _ rest hAct hstop⟩
    refine ⟨e.getD "Failed to get progress", by simp [tickStep], ?_⟩
    cases e with
    | none => simp
    | some m => simpa [TickOutcome.wf] using hwf
  · rintro r rfl hc he
    have hid : tickStep s (.ok r) = { s with progress := some r } := by
      simp [tickStep, hc, he]
    refine ⟨hid, ?_, runTicks_cons_active s _ rest hAct⟩
    rw [hid]
    exact hAct
  · rintro r rfl hc
    have hstop : (predTickStep t (.ok r)).intervalActive = false := by
      cases he : strTruthy r.error <;> simp [predTickStep, hc, he]
    refine ⟨hstop, ?_, ?_, predRunTicks_stop t _ prest hActP hstop⟩
    · cases he : strTruthy r.error <;> simp [predTickStep, hc, he]
    · intro v hv
      cases he : strTruthy r.error <;> simp [predTickStep, hc, he, hv]
  · rintro r rfl hc he
    have hstop : (predTickStep t (.ok r)).intervalActive = false := by
      simp [predTickStep, hc, he]
    refine ⟨hstop, ?_, predRunTicks_stop t _ prest hActP hstop⟩
    simp [predTickStep, hc, he]
  · rintro e rfl
    have hstop : (predTickStep t (.thrown e)).intervalActive = false := by
      simp [predTickStep]
    refine ⟨hstop, ?_, predRunTicks_stop t _ prest hActP hstop⟩
    refine ⟨e.getD "Failed to get progress", by simp [predTickStep], ?_⟩
    cases e with
    | none => simp
    | some m => simpa [PredTickOutcome.wf] using hqwf
  · rintro r rfl hc he
    have hid : predTickStep t (.ok r) = { t with progress := some r } := by
      simp [predTickStep, hc, he]
    exact ⟨hid, predRunTicks_cons_active t _ prest hActP⟩

/-- Witness for C1: a concrete completed response on the first tick after
submit; a queued later outcome is never processed. -/
theorem c1_poll_tick_behavior_witness :
    (tickStep (@postSubmitState Unit Unit "task-1")
        (.ok ⟨true, some (), none, none, 100, 4⟩)).intervalActive = false ∧
    runTicks (@postSubmitState Unit Unit "task-1")
        [.ok ⟨true, some (), none, none, 100, 4⟩,
         .ok ⟨false, none, none, none, 0, 0⟩] =
      tickStep (@postSubmitState Unit Unit "task-1")
        (.ok ⟨true, some (), none, none, 100, 4⟩) := by
  have hmain := c1_poll_tick_behavior (ρ := Unit)
    (@postSubmitState Unit Unit "task-1")
    ⟨some "task-1", true, none, none, none, true⟩
    (.ok ⟨true, some (), none, none, 100, 4⟩)
    (.ok ⟨false, none, none, 0, 0⟩)
    [.ok ⟨false, none, none, none, 0, 0⟩] [] rfl trivial rfl trivial
  obtain ⟨h1, -, -, -, -, -, -, -⟩ := hmain
  obtain ⟨ha, -, -, -, -, hb⟩ := h1 _ rfl rfl
  exact ⟨ha, hb⟩

/-- **C5 counterexample.** With a constant 3000 ms transport latency and
non-terminal responses, `setInterval` fires poll 1 at `fireTime 1 = 4000` ms
while poll 0's response is processed only at `procTime 0 = 5000` ms: the
client issues poll 1 before poll 0's response has been received and
processed, so the two polls are in flight simultaneously — refuting strict
sequentiality. -/
theorem c5_counterexample :
    tickFires ⟨fun _ => 3000, fun _ => false⟩ 0 = true ∧
    tickFires ⟨fun _ => 3000, fun _ => false⟩ 1 = true ∧
    fireTime 1 < procTime ⟨fun _ => 3000, fun _ => false⟩ 0 ∧
    fireTime 0 ≤ fireTime 1 := by
  refine ⟨rfl, rfl, by decide, by decide⟩

/-- **C5 (amended).** Poll ticks fire on the fixed 2000 ms `setInterval`
schedule regardless of whether the previous tick's response has arrived
(overlap occurs whenever a latency exceeds the interval, as the
counterexample shows).  Sequential processing holds only under the
assumption that every response arrives within the 2000 ms interval: then
poll `N`'s response is processed no later than poll `N+1` is issued. -/
theorem c5_amended_sequential_if_fast (run : PollRun)
    (h : ∀ k, run.latency k ≤ 2000) (N : ℕ) :
    procTime run N ≤ fireTime (N + 1) := by
  unfold procTime fireTime
  have hN := h N
  omega

/-- Witness for the amended C5. -/
theorem c5_amended_witness :
    (∀ k : ℕ, (⟨fun _ => 1500, fun _ => false⟩ : PollRun).latency k ≤ 2000) ∧
    procTime ⟨fun _ => 1500, fun _ => false⟩ 0 ≤ fireTime 1 :=
  ⟨fun _ => by norm_num,
   c5_amended_sequential_if_fast ⟨fun _ => 1500, fun _ => false⟩
     (fun _ => by norm_num) 0⟩

/-- **C6 counterexample.** Unmounting while the task is still non-terminal
(first tick returned ordinary progress, `isAnalyzing = true`): the
`useEffect` cleanup condition `currentTaskId && !isAnalyzing` is false, so
no `cleanup(taskId)` call is issued, and no unmount-time code clears
`pollInterval`, so the local polling loop is not stopped — the opposite of
the claim on both counts. -/
theorem c6_counterexample :
    (runTicks (@postSubmitState Unit Unit "task-1")
        [.ok ⟨false, none, none, none, 10, 2⟩]).isAnalyzing = true ∧
    (unmountStep (runTicks (@postSubmitState Unit Unit "task-1")
        [.ok ⟨false, none, none, none, 10, 2⟩])).2 = false ∧
    (unmountStep (runTicks (@postSubmitState Unit Unit "task-1")
        [.ok ⟨false, none, none, none, 10, 2⟩])).1.intervalActive = true :=
  ⟨rfl, rfl, rfl⟩

/-- **C6 (amended).** On unmount the local polling loop is never stopped
(the unmount path does not touch the interval), and the best-effort
`cleanup(taskId)` call is issued exactly when the task is no longer being
polled — i.e. when it has already reached a terminal state — which is the
opposite polarity of the original claim: for every poll run from a fresh
submit, the unmount effect leaves the state unchanged and fires `cleanup`
iff the interval has stopped. -/
theorem c6_amended_cleanup_iff_terminal {σ χ : Type} (tid : String)
    (hne : tid ≠ "") (outs : List (TickOutcome σ χ)) :
    (unmountStep (runTicks (@postSubmitState σ χ tid) outs)).1 =
      runTicks (@postSubmitState σ χ tid) outs ∧
    (unmountStep (runTicks (@postSubmitState σ χ tid) outs)).2 =
      !(runTicks (@postSubmitState σ χ tid) outs).intervalActive := by
  refine ⟨rfl, ?_⟩
  have htid : (runTicks (@postSubmitState σ χ tid) outs).currentTaskId =
      some tid := by
    rw [runTicks_taskId]
    rfl
  have hinv : (runTicks (@postSubmitState σ χ tid) outs).isAnalyzing =
      (runTicks (@postSubmitState σ χ tid) outs).intervalActive :=
    runTicks_analyzing_eq_interval _ _ rfl
  show (strTruthy (runTicks (@postSubmitState σ χ tid) outs).currentTaskId &&
      !(runTicks (@postSubmitState σ χ tid) outs).isAnalyzing) =
    !(runTicks (@postSubmitState σ χ tid) outs).intervalActive
  rw [htid, hinv]
  simp [strTruthy, hne]

/-- Witness for the amended C6 (a completed task, then unmount: cleanup
fires). -/
theorem c6_amended_witness :
    ("task-1" : String) ≠ "" ∧
    (unmountStep (runTicks (@postSubmitState Unit Unit "task-1")
        [.ok ⟨true, some (), none, none, 100, 4⟩])).2 =
      !(runTicks (@postSubmitState Unit Unit "task-1")
        [.ok ⟨true, some (), none, none, 100, 4⟩]).intervalActive :=
  ⟨by decide,
   (c6_amended_cleanup_iff_terminal "task-1" (by decide)
     [.ok ⟨true, some (), none, none, 100, 4⟩]).2⟩

end Atmora
